import Mathlib

/-!
Verification development for the MIDI-Transformer curve editor
(`Source/CurveEditor.h`).  The C++ component is a piecewise-curve
transfer-function editor: an ordered list of nodes (anchor plus two
control handles plus a segment type) together with an evaluation
function `compute`, interactive mutation operations (point insertion,
node deletion, handle dragging, segment-type cycling) and a
serialization adapter to an attributed tree.

The embedding below is a faithful shallow embedding of that header
over exact rational arithmetic: the C++ code computes with `float`;
the claims under verification are about the algorithmic structure
(segment selection, interpolation formulas, argmin sampling, list
mutations), which is what the rational model captures.  Float literals
such as `0.9f` and `0.5f` are modelled by their exact decimal values.
`jassert` is a debug-only assertion in JUCE and compiles to a no-op in
release builds, so assertions are not modelled as failures.
-/

namespace CurveEditor

/-- Point in model space, mirroring `juce::Point<T>` as used by the
curve editor (a pair of coordinates with value semantics). -/
structure Pt where
  x : ℚ
  y : ℚ
deriving DecidableEq, Repr

instance : Inhabited Pt := ⟨⟨0, 0⟩⟩

/-- Componentwise point addition (`juce::Point::operator+`). -/
def Pt.add (a b : Pt) : Pt := ⟨a.x + b.x, a.y + b.y⟩

/-- Componentwise point subtraction (`juce::Point::operator-`). -/
def Pt.sub (a b : Pt) : Pt := ⟨a.x - b.x, a.y - b.y⟩

/-- Scalar multiplication of a point (`juce::Point::operator*` with a
scalar). -/
def Pt.smul (c : ℚ) (a : Pt) : Pt := ⟨c * a.x, c * a.y⟩

/-- `CurveEditorModel<T>::CurveType` (`Linear = 0, Quadratic, Cubic`). -/
inductive CurveType where
  | Linear
  | Quadratic
  | Cubic
deriving DecidableEq, Repr

/-- The integer value of a `CurveType` under `static_cast<int>`. -/
def CurveType.toInt : CurveType → Int
  | CurveType.Linear => 0
  | CurveType.Quadratic => 1
  | CurveType.Cubic => 2

/-- `static_cast<CurveType>` applied to an integer.  The C++ code only
ever casts 0, 1 or 2 (values produced by `% CurveTypeCount` or by a
previous `static_cast<int>` of a `CurveType`). -/
def CurveType.ofInt (i : Int) : CurveType :=
  if i = 0 then CurveType.Linear
  else if i = 1 then CurveType.Quadratic
  else CurveType.Cubic

/-- `CurveEditorModel<T>::Node`: one breakpoint of the curve.  The C++
`Handle` struct wraps a point together with a raw back-pointer to its
owning node; the back-pointer exists only so the UI can find the node
from a handle, so each handle is embedded as its point.  `curveType`
describes the segment from this node to the next one. -/
structure Node where
  anchor : Pt
  control1 : Pt
  control2 : Pt
  curveType : CurveType
deriving DecidableEq, Repr

/-- The `Node(anchor)` constructor: all three handles start at the
anchor point and the segment type defaults to `Linear`. -/
def mkNode (p : Pt) : Node := ⟨p, p, p, CurveType.Linear⟩

instance : Inhabited Node := ⟨mkNode ⟨0, 0⟩⟩

/-- `Node::setAnchorPt`: moves the anchor and translates both control
handles by the same delta (each control keeps its offset from the
anchor). -/
def Node.setAnchorPt (n : Node) (p : Pt) : Node :=
  { n with
    anchor := p
    control1 := Pt.sub p (Pt.sub n.anchor n.control1)
    control2 := Pt.sub p (Pt.sub n.anchor n.control2) }

/-- `Node::setControlPt1`. -/
def Node.setControlPt1 (n : Node) (p : Pt) : Node := { n with control1 := p }

/-- `Node::setControlPt2`. -/
def Node.setControlPt2 (n : Node) (p : Pt) : Node := { n with control2 := p }

/-- The cubic Bezier point of `compute`'s `computeCubic` lambda:
`p0*(1-t)^3 + p1*3*(1-t)^2*t + p2*3*(1-t)*t^2 + p3*t^3`. -/
def computeCubic (p0 p1 p2 p3 : Pt) (t : ℚ) : Pt :=
  Pt.add
    (Pt.add (Pt.smul ((1 - t) ^ 3) p0) (Pt.smul (3 * (1 - t) ^ 2 * t) p1))
    (Pt.add (Pt.smul (3 * (1 - t) * t ^ 2) p2) (Pt.smul (t ^ 3) p3))

/-- The quadratic Bezier point of `compute`'s `computeQuadratic`
lambda: `p0*(1-t)^2 + p1*2*(1-t)*t + p2*t^2`. -/
def computeQuadratic (p0 p1 p2 : Pt) (t : ℚ) : Pt :=
  Pt.add (Pt.add (Pt.smul ((1 - t) ^ 2) p0) (Pt.smul (2 * (1 - t) * t) p1))
    (Pt.smul (t ^ 2) p2)

/-- The `distance` computed in the quadratic sampling loop at grid
index `j` (the loop uses `t = j / 100`): `|Bezier_x(t) - input|`. -/
def quadDist (p0 p1 p2 : Pt) (input : ℚ) (j : ℕ) : ℚ :=
  |(computeQuadratic p0 p1 p2 ((j : ℚ) / 100)).x - input|

/-- The `distance` computed in the cubic sampling loop at grid index
`j`. -/
def cubicDist (p0 p1 p2 p3 : Pt) (input : ℚ) (j : ℕ) : ℚ :=
  |(computeCubic p0 p1 p2 p3 ((j : ℚ) / 100)).x - input|

/-- One iteration of the sampling loop's state update.  The state is
the pair `(finalT as grid index, minDist)`, initially `(0, -1)`; the
body mirrors `if (distance < minDist || minDist < 0) { finalT = t;
minDist = distance; }`. -/
def bezierStep (d : ℕ → ℚ) (st : ℕ × ℚ) (j : ℕ) : ℕ × ℚ :=
  if d j < st.2 ∨ st.2 < 0 then (j, d j) else st

/-- The grid index selected by the 101-point sampling loop, which
iterates `j` from `0` to `100` inclusive. -/
def bestIdx (d : ℕ → ℚ) : ℕ :=
  ((List.range 101).foldl (bezierStep d) (0, -1)).1

/-- The value `compute` returns for the selected segment
`(lastNode, node)`, dispatching on `lastNode.curveType` exactly as the
`switch` in `CurveEditorModel<T>::compute` does. -/
def computeSeg (lastNode node : Node) (input : ℚ) : ℚ :=
  match lastNode.curveType with
  | CurveType.Cubic =>
      (computeCubic lastNode.anchor lastNode.control1 lastNode.control2 node.anchor
        (((bestIdx (cubicDist lastNode.anchor lastNode.control1 lastNode.control2
            node.anchor input) : ℕ) : ℚ) / 100)).y
  | CurveType.Quadratic =>
      (computeQuadratic lastNode.anchor lastNode.control1 node.anchor
        (((bestIdx (quadDist lastNode.anchor lastNode.control1 node.anchor input) : ℕ) : ℚ)
          / 100)).y
  | CurveType.Linear =>
      (node.anchor.y - lastNode.anchor.y) / (node.anchor.x - lastNode.anchor.x)
        * (input - lastNode.anchor.x) + lastNode.anchor.y

/-- The scan of `CurveEditorModel<T>::compute` over the segments
`(nodes[i-1], nodes[i])` for `i = 1, …`: `lastN` is `nodes[i-1]` and
`rest` is the remaining suffix `nodes[i], …`.  When the scan falls off
the end the C++ function executes `jassertfalse; return 0.0f;`. -/
def computeAux (lastN : Node) (rest : List Node) (input : ℚ) : ℚ :=
  match rest with
  | [] => 0
  | node :: rest' =>
      if input ≤ node.anchor.x then computeSeg lastN node input
      else computeAux node rest' input

/-- `CurveEditorModel<T>::compute`.  With fewer than two nodes the
loop body never runs and the function returns `0` (the C++ code
additionally raises a debug assertion in that case and on
fall-through). -/
def compute (nodes : List Node) (input : ℚ) : ℚ :=
  match nodes with
  | [] => 0
  | n :: rest => computeAux n rest input

/-- Relative index of the segment the scan selects inside the suffix
`rest`: the first position whose anchor satisfies `input ≤ anchor.x`,
`none` if the scan falls through. -/
def selectRel (rest : List Node) (input : ℚ) : Option ℕ :=
  match rest with
  | [] => none
  | node :: rest' =>
      if input ≤ node.anchor.x then some 0
      else (selectRel rest' input).map (fun k => k + 1)

/-- Absolute index `i ≥ 1` of the node `nodes[i]` whose segment
`(nodes[i-1], nodes[i])` the evaluation loop selects for `input`. -/
def selectIdx (nodes : List Node) (input : ℚ) : Option ℕ :=
  match nodes with
  | [] => none
  | _ :: rest => (selectRel rest input).map (fun k => k + 1)

/-- `CurveEditor<T>::addPoint`: insert the new node before the first
node whose anchor satisfies `p.x ≤ anchor.x`; if no such node exists
the loop ends and nothing is inserted. -/
def addPoint (nodes : List Node) (p : Pt) : List Node :=
  match nodes with
  | [] => []
  | n :: rest =>
      if p.x ≤ n.anchor.x then mkNode p :: n :: rest
      else n :: addPoint rest p

/-- The node anchors are sorted by ascending `anchor.x` (each adjacent
pair is ordered; by transitivity this is ascending sortedness). -/
def anchorsSorted (nodes : List Node) : Prop :=
  List.Chain' (fun a b => a.anchor.x ≤ b.anchor.x) nodes

instance (nodes : List Node) : Decidable (anchorsSorted nodes) :=
  inferInstanceAs (Decidable (List.Chain' _ nodes))

/-- `juce::jlimit (lowerLimit, upperLimit, valueToConstrain)`. -/
def jlimit (lower upper v : ℚ) : ℚ :=
  if v < lower then lower else if upper < v then upper else v

/-- Which of a node's three handles is selected for dragging.  The C++
code identifies the selected handle by a raw pointer; a pointer into a
node is one of `&node->anchor`, `&node->control1`, `&node->control2`. -/
inductive HandleKind where
  | anchor
  | control1
  | control2
deriving DecidableEq, Repr

/-- The state of `CurveEditorModel<T>` that the mutation operations
touch: the domain bounds and the ordered node list. -/
structure Model where
  minX : ℚ
  maxX : ℚ
  minY : ℚ
  maxY : ℚ
  nodes : List Node
deriving Repr

/-- The `CurveEditorModel<T>` constructor: three `Linear` nodes at the
lower-left corner, the midpoint, and the upper-right corner of the
domain (`0.5f` modelled exactly). -/
def freshModel (minX maxX minY maxY : ℚ) : Model :=
  { minX := minX, maxX := maxX, minY := minY, maxY := maxY
    nodes := [mkNode ⟨minX, minY⟩,
              mkNode ⟨minX + (maxX - minX) * (1 / 2), minY + (maxY - minY) * (1 / 2)⟩,
              mkNode ⟨maxX, maxY⟩] }

/-- `CurveEditor<T>::addPoint` acting on the model it mutates. -/
def Model.addPoint (m : Model) (p : Pt) : Model :=
  { m with nodes := CurveEditor.addPoint m.nodes p }

/-- `CurveEditor<T>::mouseDrag` with a handle selected.  `sel` is the
index of the node owning the selected handle and `kind` says which of
its handles is selected (the C++ code holds a raw pointer to the
handle).  `mousePt` is the drag target already transformed into model
space (the screen-space transform belongs to the excluded
presentation layer).  The damping constant `0.9f` is modelled exactly
as `9/10`.  Mirrors, in order: the damped move, the clamp of x to
`[minX+1, maxX-1]` and of y to `[minY, maxY]`, the x-pinning of the
first and last node, and the dispatch on which handle is selected
(control handles only move when the node's curve type uses them). -/
def Model.mouseDrag (m : Model) (sel : ℕ) (kind : HandleKind) (mousePt : Pt) : Model :=
  let node := m.nodes.getD sel default
  let selPt : Pt :=
    match kind with
    | HandleKind.anchor => node.anchor
    | HandleKind.control1 => node.control1
    | HandleKind.control2 => node.control2
  let curveType := node.curveType
  let moved := Pt.add selPt (Pt.smul (9 / 10) (Pt.sub mousePt selPt))
  let clamped : Pt := ⟨jlimit (m.minX + 1) (m.maxX - 1) moved.x, jlimit m.minY m.maxY moved.y⟩
  let pinned : Pt :=
    if sel = 0 then ⟨m.minX, clamped.y⟩
    else if sel = m.nodes.length - 1 then ⟨m.maxX, clamped.y⟩
    else clamped
  let node' : Node :=
    match kind with
    | HandleKind.anchor => node.setAnchorPt pinned
    | HandleKind.control1 =>
        if curveType = CurveType.Quadratic ∨ curveType = CurveType.Cubic then
          node.setControlPt1 pinned
        else node
    | HandleKind.control2 =>
        if curveType = CurveType.Cubic then node.setControlPt2 pinned else node
  { m with nodes := m.nodes.set sel node' }

/-- The node-deletion path of `CurveEditor<T>::mouseDown` (right
button): the first and last nodes are exempt, any other node is
erased. -/
def Model.deleteNode (m : Model) (i : ℕ) : Model :=
  if i = 0 ∨ i = m.nodes.length - 1 then m
  else { m with nodes := m.nodes.eraseIdx i }

/-- The segment-type cycling path of `CurveEditor<T>::mouseDoubleClick`
on an anchor handle: the node's type is advanced by
`(type + 1) % CurveTypeCount` unconditionally, then the control
handles are re-seeded — to the anchor for `Linear`, to
`anchor + (5, 0)` (and `anchor + (0, 5)` for `control2` under `Cubic`)
only when the node is not the last node. -/
def cycleSegmentType (node : Node) (isLast : Bool) : Node :=
  let newType := CurveType.ofInt ((CurveType.toInt node.curveType + 1) % 3)
  let node1 : Node := { node with curveType := newType }
  if newType = CurveType.Linear then
    node1.setControlPt1 node1.anchor
  else if newType = CurveType.Quadratic ∧ isLast = false then
    node1.setControlPt1 (Pt.add node1.anchor ⟨5, 0⟩)
  else if newType = CurveType.Cubic ∧ isLast = false then
    (node1.setControlPt1 (Pt.add node1.anchor ⟨5, 0⟩)).setControlPt2
      (Pt.add node1.anchor ⟨0, 5⟩)
  else
    node1

/-- An `(x, y)` attribute record of the persisted tree (one per
handle). -/
structure HandleTree where
  x : ℚ
  y : ℚ
deriving DecidableEq, Repr

/-- One child of the persisted tree, as produced by
`Node::toValueTree`: an integer `curveType` attribute and the three
named handle records. -/
structure NodeTree where
  curveType : Int
  anchor : HandleTree
  control1 : HandleTree
  control2 : HandleTree
deriving DecidableEq, Repr

/-- `Node::toValueTree` (the tree's identifier tag carries no data and
is omitted). -/
def Node.toValueTree (n : Node) : NodeTree :=
  { curveType := CurveType.toInt n.curveType
    anchor := ⟨n.anchor.x, n.anchor.y⟩
    control1 := ⟨n.control1.x, n.control1.y⟩
    control2 := ⟨n.control2.x, n.control2.y⟩ }

/-- `CurveEditorModel<T>::fromValueTree`: for each child, construct a
node at the stored anchor (the `Node` constructor places all handles
there), cast the stored integer back to a `CurveType`, then overwrite
both control points with the stored coordinates. -/
def fromValueTree (tree : List NodeTree) : List Node :=
  tree.map (fun child =>
    let node0 := mkNode ⟨child.anchor.x, child.anchor.y⟩
    let node1 := { node0 with curveType := CurveType.ofInt child.curveType }
    let node2 := node1.setControlPt1 ⟨child.control1.x, child.control1.y⟩
    node2.setControlPt2 ⟨child.control2.x, child.control2.y⟩)

lemma CurveType.ofInt_toInt (t : CurveType) : CurveType.ofInt (CurveType.toInt t) = t := by
  cases t <;> rfl

lemma selectRel_eq_none (rest : List Node) : ∀ (x : ℚ), selectRel rest x = none →
    ∀ n ∈ rest, n.anchor.x < x := by
  induction rest with
  | nil => intro x _ n hn; simp at hn
  | cons node rest ih =>
    intro x h n hn
    by_cases hx : x ≤ node.anchor.x
    · simp [selectRel, hx] at h
    · have h' : selectRel rest x = none := by
        simpa [selectRel, hx] using h
      rcases List.mem_cons.mp hn with rfl | hn'
      · exact not_le.mp hx
      · exact ih x h' n hn'

lemma computeAux_fallthrough (rest : List Node) : ∀ (lastN : Node) (x : ℚ),
    (∀ n ∈ rest, n.anchor.x < x) → computeAux lastN rest x = 0 := by
  induction rest with
  | nil => intro lastN x _; rfl
  | cons node rest ih =>
    intro lastN x h
    have hx : ¬ x ≤ node.anchor.x := not_le.mpr (h node (by simp))
    simp only [computeAux, if_neg hx]
    exact ih node x (fun n hn => h n (by simp [hn]))

lemma selectRel_eq_some (rest : List Node) : ∀ (x : ℚ) (i : ℕ), selectRel rest x = some i →
    i < rest.length ∧ x ≤ (rest.getD i default).anchor.x ∧
      (∀ j, j < i → (rest.getD j default).anchor.x < x) ∧
      ∀ lastN : Node, computeAux lastN rest x =
        computeSeg (if i = 0 then lastN else rest.getD (i - 1) default)
          (rest.getD i default) x := by
  induction rest with
  | nil => intro x i h; simp [selectRel] at h
  | cons node rest ih =>
    intro x i h
    by_cases hx : x ≤ node.anchor.x
    · have hi : i = 0 := by
        have : some 0 = some i := by simpa [selectRel, hx] using h
        simpa using this.symm
      subst hi
      refine ⟨by simp, by simpa using hx, by intro j hj; omega, ?_⟩
      intro lastN
      simp [computeAux, hx]
    · have h' : ∃ i', selectRel rest x = some i' ∧ i = i' + 1 := by
        rcases hsel : selectRel rest x with _ | i'
        · simp [selectRel, hx, hsel] at h
        · refine ⟨i', rfl, ?_⟩
          have h2 : some i = some (i' + 1) := by
            rw [← h]; simp [selectRel, hx, hsel]
          simpa using h2
      obtain ⟨i', hsel, rfl⟩ := h'
      obtain ⟨hlen, hle, hfirst, heq⟩ := ih x i' hsel
      refine ⟨by simp; omega, by simpa using hle, ?_, ?_⟩
      · intro j hj
        cases j with
        | zero => simpa using not_le.mp hx
        | succ j' => simpa using hfirst j' (by omega)
      · intro lastN
        simp only [computeAux, if_neg hx]
        rw [heq node]
        cases i' with
        | zero => simp
        | succ m => simp

lemma bezierFold_spec (d : ℕ → ℚ) (hd : ∀ j, 0 ≤ d j) :
    ∀ n : ℕ, ∃ m : ℕ,
      (List.range (n + 1)).foldl (bezierStep d) (0, -1) = (m, d m) ∧
      m ≤ n ∧ (∀ k, k ≤ n → d m ≤ d k) ∧ ∀ k, k < m → d m < d k := by
  intro n
  induction n with
  | zero =>
    refine ⟨0, ?_, le_refl 0, ?_, ?_⟩
    · show bezierStep d (0, -1) 0 = (0, d 0)
      simp only [bezierStep]
      rw [if_pos (Or.inr (by norm_num))]
    · intro k hk
      have : k = 0 := Nat.le_zero.mp hk
      simp [this]
    · intro k hk
      exact absurd hk (Nat.not_lt_zero k)
  | succ n ih =>
    obtain ⟨m, hfold, hm, hmin, hstrict⟩ := ih
    rw [List.range_succ, List.foldl_append, hfold]
    by_cases hlt : d (n + 1) < d m
    · refine ⟨n + 1, ?_, le_refl _, ?_, ?_⟩
      · simp only [List.foldl_cons, List.foldl_nil, bezierStep]
        rw [if_pos (Or.inl hlt)]
      · intro k hk
        by_cases hk' : k ≤ n
        · exact le_trans (le_of_lt hlt) (hmin k hk')
        · have : k = n + 1 := by omega
          simp [this]
      · intro k hk
        exact lt_of_lt_of_le hlt (hmin k (by omega))
    · have hcond : ¬ (d (n + 1) < d m ∨ d m < 0) := by
        push_neg
        exact ⟨not_lt.mp hlt, hd m⟩
      refine ⟨m, ?_, by omega, ?_, hstrict⟩
      · simp only [List.foldl_cons, List.foldl_nil, bezierStep]
        rw [if_neg hcond]
      · intro k hk
        by_cases hk' : k ≤ n
        · exact hmin k hk'
        · have : k = n + 1 := by omega
          rw [this]
          exact not_lt.mp hlt

lemma bestIdx_spec (d : ℕ → ℚ) (hd : ∀ j, 0 ≤ d j) :
    bestIdx d ≤ 100 ∧ (∀ k, k ≤ 100 → d (bestIdx d) ≤ d k) ∧
      ∀ k, k < bestIdx d → d (bestIdx d) < d k := by
  obtain ⟨m, hfold, hm, hmin, hstrict⟩ := bezierFold_spec d hd 100
  have hbest : bestIdx d = m := by
    have h101 : (101 : ℕ) = 100 + 1 := rfl
    rw [bestIdx, h101, hfold]
  rw [hbest]
  exact ⟨hm, hmin, hstrict⟩

lemma compute_of_selectIdx (nodes : List Node) (x : ℚ) (i : ℕ)
    (h : selectIdx nodes x = some i) :
    1 ≤ i ∧ i < nodes.length ∧
      compute nodes x = computeSeg (nodes.getD (i - 1) default) (nodes.getD i default) x := by
  cases nodes with
  | nil => simp [selectIdx] at h
  | cons n0 rest =>
    obtain ⟨i', hsel, rfl⟩ : ∃ i', selectRel rest x = some i' ∧ i = i' + 1 := by
      rcases hsel : selectRel rest x with _ | i'
      · simp [selectIdx, hsel] at h
      · have h2 : some i = some (i' + 1) := by
          rw [← h]; simp [selectIdx, hsel]
        exact ⟨i', rfl, by simpa using h2⟩
    obtain ⟨hlen, hle, hfirst, heq⟩ := selectRel_eq_some rest x i' hsel
    refine ⟨by omega, by simp; omega, ?_⟩
    show computeAux n0 rest x = _
    rw [heq n0]
    cases i' with
    | zero => simp
    | succ m => simp

/-- C1: for a model with at least two nodes sorted ascending by
`anchor.x` and an input `x` at most the last anchor's x, `compute`
selects the first segment `(nodes[i-1], nodes[i])` whose right anchor
satisfies `anchor.x ≥ x`, and when that segment's left node is
`Linear` (with distinct anchor x's) the result is the exact linear
interpolation `lastAnchor.y + ((anchor.y - lastAnchor.y) /
(anchor.x - lastAnchor.x)) * (x - lastAnchor.x)`. -/
theorem compute_first_linear_segment (nodes : List Node) (x : ℚ)
    (hlen : 2 ≤ nodes.length) (hsorted : anchorsSorted nodes)
    (hx : x ≤ (nodes.getD (nodes.length - 1) default).anchor.x) :
    ∃ i, 1 ≤ i ∧ i < nodes.length ∧
      x ≤ (nodes.getD i default).anchor.x ∧
      (∀ j, 1 ≤ j → j < i → (nodes.getD j default).anchor.x < x) ∧
      compute nodes x = computeSeg (nodes.getD (i - 1) default) (nodes.getD i default) x ∧
      ((nodes.getD (i - 1) default).curveType = CurveType.Linear →
        (nodes.getD (i - 1) default).anchor.x ≠ (nodes.getD i default).anchor.x →
        compute nodes x =
          (nodes.getD (i - 1) default).anchor.y +
            ((nodes.getD i default).anchor.y - (nodes.getD (i - 1) default).anchor.y) /
              ((nodes.getD i default).anchor.x - (nodes.getD (i - 1) default).anchor.x) *
              (x - (nodes.getD (i - 1) default).anchor.x)) := by
  cases nodes with
  | nil => simp at hlen
  | cons n0 rest =>
    have hrest : rest ≠ [] := by
      intro hnil
      rw [hnil] at hlen
      simp at hlen
    have hlast : ((n0 :: rest).getD ((n0 :: rest).length - 1) default)
        = rest.getD (rest.length - 1) default := by
      have hlen' : (n0 :: rest).length - 1 = (rest.length - 1) + 1 := by
        have := List.length_pos.mpr hrest
        simp
        omega
      rw [hlen', List.getD_cons_succ]
    rcases hsel : selectRel rest x with _ | i'
    · exfalso
      have hall := selectRel_eq_none rest x hsel
      have hmem : rest.getD (rest.length - 1) default ∈ rest := by
        have hpos : rest.length - 1 < rest.length := by
          have := List.length_pos.mpr hrest
          omega
        rw [List.getD_eq_getElem _ _ hpos]
        exact List.getElem_mem hpos
      have := hall _ hmem
      rw [hlast] at hx
      exact absurd hx (not_le.mpr this)
    · obtain ⟨hilen, hle, hfirst, heq⟩ := selectRel_eq_some rest x i' hsel
      refine ⟨i' + 1, by omega, by simp; omega, by simpa using hle, ?_, ?_, ?_⟩
      · intro j h1 hj
        cases j with
        | zero => omega
        | succ j'' => simpa using hfirst j'' (by omega)
      · show computeAux n0 rest x = _
        rw [heq n0]
        cases i' with
        | zero => simp
        | succ m => simp
      · intro hlin hne
        have hc : compute (n0 :: rest) x =
            computeSeg ((n0 :: rest).getD (i' + 1 - 1) default)
              ((n0 :: rest).getD (i' + 1) default) x := by
          show computeAux n0 rest x = _
          rw [heq n0]
          cases i' with
          | zero => simp
          | succ m => simp
        rw [hc, computeSeg]
        rw [hlin]
        ring

/-- Witness for `compute_first_linear_segment` at the two-node linear
model from `(0,0)` to `(10,10)` with input `4`. -/
theorem compute_first_linear_segment_witness :
    ∃ i, 1 ≤ i ∧ i < ([mkNode ⟨0, 0⟩, mkNode ⟨10, 10⟩] : List Node).length ∧
      (4 : ℚ) ≤ (([mkNode ⟨0, 0⟩, mkNode ⟨10, 10⟩] : List Node).getD i default).anchor.x ∧
      (∀ j, 1 ≤ j → j < i →
        (([mkNode ⟨0, 0⟩, mkNode ⟨10, 10⟩] : List Node).getD j default).anchor.x < 4) ∧
      compute [mkNode ⟨0, 0⟩, mkNode ⟨10, 10⟩] 4 =
        computeSeg (([mkNode ⟨0, 0⟩, mkNode ⟨10, 10⟩] : List Node).getD (i - 1) default)
          (([mkNode ⟨0, 0⟩, mkNode ⟨10, 10⟩] : List Node).getD i default) 4 ∧
      ((([mkNode ⟨0, 0⟩, mkNode ⟨10, 10⟩] : List Node).getD (i - 1) default).curveType
          = CurveType.Linear →
        (([mkNode ⟨0, 0⟩, mkNode ⟨10, 10⟩] : List Node).getD (i - 1) default).anchor.x
          ≠ (([mkNode ⟨0, 0⟩, mkNode ⟨10, 10⟩] : List Node).getD i default).anchor.x →
        compute [mkNode ⟨0, 0⟩, mkNode ⟨10, 10⟩] 4 =
          (([mkNode ⟨0, 0⟩, mkNode ⟨10, 10⟩] : List Node).getD (i - 1) default).anchor.y +
            ((([mkNode ⟨0, 0⟩, mkNode ⟨10, 10⟩] : List Node).getD i default).anchor.y -
                (([mkNode ⟨0, 0⟩, mkNode ⟨10, 10⟩] : List Node).getD (i - 1) default).anchor.y) /
              ((([mkNode ⟨0, 0⟩, mkNode ⟨10, 10⟩] : List Node).getD i default).anchor.x -
                (([mkNode ⟨0, 0⟩, mkNode ⟨10, 10⟩] : List Node).getD (i - 1) default).anchor.x) *
              (4 - (([mkNode ⟨0, 0⟩, mkNode ⟨10, 10⟩] : List Node).getD (i - 1) default).anchor.x)) :=
  compute_first_linear_segment [mkNode ⟨0, 0⟩, mkNode ⟨10, 10⟩] 4 (by norm_num)
    (by norm_num [anchorsSorted, mkNode]) (by norm_num [mkNode])

lemma computeSeg_quadratic (L R : Node) (x : ℚ)
    (hq : L.curveType = CurveType.Quadratic) :
    ∃ j : ℕ, j ≤ 100 ∧
      computeSeg L R x = (computeQuadratic L.anchor L.control1 R.anchor ((j : ℚ) / 100)).y ∧
      (∀ k, k ≤ 100 →
        quadDist L.anchor L.control1 R.anchor x j ≤ quadDist L.anchor L.control1 R.anchor x k) ∧
      ∀ k, k < j →
        quadDist L.anchor L.control1 R.anchor x j < quadDist L.anchor L.control1 R.anchor x k := by
  have hd : ∀ j, 0 ≤ quadDist L.anchor L.control1 R.anchor x j := by
    intro j
    unfold quadDist
    exact abs_nonneg _
  obtain ⟨hb, hmin, hstrict⟩ := bestIdx_spec _ hd
  refine ⟨bestIdx (quadDist L.anchor L.control1 R.anchor x), hb, ?_, hmin, hstrict⟩
  simp only [computeSeg, hq]

lemma computeSeg_cubic (L R : Node) (x : ℚ)
    (hq : L.curveType = CurveType.Cubic) :
    ∃ j : ℕ, j ≤ 100 ∧
      computeSeg L R x =
        (computeCubic L.anchor L.control1 L.control2 R.anchor ((j : ℚ) / 100)).y ∧
      (∀ k, k ≤ 100 →
        cubicDist L.anchor L.control1 L.control2 R.anchor x j ≤
          cubicDist L.anchor L.control1 L.control2 R.anchor x k) ∧
      ∀ k, k < j →
        cubicDist L.anchor L.control1 L.control2 R.anchor x j <
          cubicDist L.anchor L.control1 L.control2 R.anchor x k := by
  have hd : ∀ j, 0 ≤ cubicDist L.anchor L.control1 L.control2 R.anchor x j := by
    intro j
    unfold cubicDist
    exact abs_nonneg _
  obtain ⟨hb, hmin, hstrict⟩ := bestIdx_spec _ hd
  refine ⟨bestIdx (cubicDist L.anchor L.control1 L.control2 R.anchor x), hb, ?_, hmin, hstrict⟩
  simp only [computeSeg, hq]

/-- C2: when the segment selected by `compute` for `x` has a
`Quadratic` (resp. `Cubic`) left node, the result is the Bezier
y-coordinate at the grid parameter `t = j/100`, `j ∈ {0, …, 100}`,
that minimizes `|Bezier_x(t) - x|`, with ties broken in favour of the
first (lowest-`t`) minimum: every later grid point is no closer, and
every earlier grid point is strictly farther. -/
theorem compute_bezier_argmin (nodes : List Node) (x : ℚ) (i : ℕ)
    (hsel : selectIdx nodes x = some i) :
    ((nodes.getD (i - 1) default).curveType = CurveType.Quadratic →
      ∃ j : ℕ, j ≤ 100 ∧
        compute nodes x =
          (computeQuadratic (nodes.getD (i - 1) default).anchor
            (nodes.getD (i - 1) default).control1 (nodes.getD i default).anchor
            ((j : ℚ) / 100)).y ∧
        (∀ k, k ≤ 100 →
          quadDist (nodes.getD (i - 1) default).anchor
              (nodes.getD (i - 1) default).control1 (nodes.getD i default).anchor x j ≤
            quadDist (nodes.getD (i - 1) default).anchor
              (nodes.getD (i - 1) default).control1 (nodes.getD i default).anchor x k) ∧
        ∀ k, k < j →
          quadDist (nodes.getD (i - 1) default).anchor
              (nodes.getD (i - 1) default).control1 (nodes.getD i default).anchor x j <
            quadDist (nodes.getD (i - 1) default).anchor
              (nodes.getD (i - 1) default).control1 (nodes.getD i default).anchor x k) ∧
    ((nodes.getD (i - 1) default).curveType = CurveType.Cubic →
      ∃ j : ℕ, j ≤ 100 ∧
        compute nodes x =
          (computeCubic (nodes.getD (i - 1) default).anchor
            (nodes.getD (i - 1) default).control1 (nodes.getD (i - 1) default).control2
            (nodes.getD i default).anchor ((j : ℚ) / 100)).y ∧
        (∀ k, k ≤ 100 →
          cubicDist (nodes.getD (i - 1) default).anchor
              (nodes.getD (i - 1) default).control1 (nodes.getD (i - 1) default).control2
              (nodes.getD i default).anchor x j ≤
            cubicDist (nodes.getD (i - 1) default).anchor
              (nodes.getD (i - 1) default).control1 (nodes.getD (i - 1) default).control2
              (nodes.getD i default).anchor x k) ∧
        ∀ k, k < j →
          cubicDist (nodes.getD (i - 1) default).anchor
              (nodes.getD (i - 1) default).control1 (nodes.getD (i - 1) default).control2
              (nodes.getD i default).anchor x j <
            cubicDist (nodes.getD (i - 1) default).anchor
              (nodes.getD (i - 1) default).control1 (nodes.getD (i - 1) default).control2
              (nodes.getD i default).anchor x k) := by
  obtain ⟨h1, h2, hc⟩ := compute_of_selectIdx nodes x i hsel
  constructor
  · intro hq
    obtain ⟨j, hj, heq, hmin, hstrict⟩ :=
      computeSeg_quadratic (nodes.getD (i - 1) default) (nodes.getD i default) x hq
    exact ⟨j, hj, by rw [hc, heq], hmin, hstrict⟩
  · intro hq
    obtain ⟨j, hj, heq, hmin, hstrict⟩ :=
      computeSeg_cubic (nodes.getD (i - 1) default) (nodes.getD i default) x hq
    exact ⟨j, hj, by rw [hc, heq], hmin, hstrict⟩

/-- Witness for `compute_bezier_argmin`: a quadratic segment from
`(0,0)` with control `(5,0)` to `(10,10)` and a cubic segment from
`(0,0)` with controls `(3,0)` and `(7,10)` to `(10,10)`, both queried
at `x = 5`. -/
theorem compute_bezier_argmin_witness :
    (∃ j : ℕ, j ≤ 100 ∧
      compute ([⟨⟨0, 0⟩, ⟨5, 0⟩, ⟨0, 0⟩, CurveType.Quadratic⟩, mkNode ⟨10, 10⟩] : List Node) 5 =
        (computeQuadratic ⟨0, 0⟩ ⟨5, 0⟩ ⟨10, 10⟩ ((j : ℚ) / 100)).y ∧
      (∀ k, k ≤ 100 →
        quadDist ⟨0, 0⟩ ⟨5, 0⟩ ⟨10, 10⟩ 5 j ≤ quadDist ⟨0, 0⟩ ⟨5, 0⟩ ⟨10, 10⟩ 5 k) ∧
      ∀ k, k < j →
        quadDist ⟨0, 0⟩ ⟨5, 0⟩ ⟨10, 10⟩ 5 j < quadDist ⟨0, 0⟩ ⟨5, 0⟩ ⟨10, 10⟩ 5 k) ∧
    ∃ j : ℕ, j ≤ 100 ∧
      compute ([⟨⟨0, 0⟩, ⟨3, 0⟩, ⟨7, 10⟩, CurveType.Cubic⟩, mkNode ⟨10, 10⟩] : List Node) 5 =
        (computeCubic ⟨0, 0⟩ ⟨3, 0⟩ ⟨7, 10⟩ ⟨10, 10⟩ ((j : ℚ) / 100)).y ∧
      (∀ k, k ≤ 100 →
        cubicDist ⟨0, 0⟩ ⟨3, 0⟩ ⟨7, 10⟩ ⟨10, 10⟩ 5 j ≤
          cubicDist ⟨0, 0⟩ ⟨3, 0⟩ ⟨7, 10⟩ ⟨10, 10⟩ 5 k) ∧
      ∀ k, k < j →
        cubicDist ⟨0, 0⟩ ⟨3, 0⟩ ⟨7, 10⟩ ⟨10, 10⟩ 5 j <
          cubicDist ⟨0, 0⟩ ⟨3, 0⟩ ⟨7, 10⟩ ⟨10, 10⟩ 5 k := by
  constructor
  · exact (compute_bezier_argmin
      ([⟨⟨0, 0⟩, ⟨5, 0⟩, ⟨0, 0⟩, CurveType.Quadratic⟩, mkNode ⟨10, 10⟩] : List Node) 5 1
      (by norm_num [selectIdx, selectRel, mkNode])).1 rfl
  · exact (compute_bezier_argmin
      ([⟨⟨0, 0⟩, ⟨3, 0⟩, ⟨7, 10⟩, CurveType.Cubic⟩, mkNode ⟨10, 10⟩] : List Node) 5 1
      (by norm_num [selectIdx, selectRel, mkNode])).2 rfl

/-- C3, counterexample: on the two-node linear model from `(0,0)` to
`(1,1)` with input `2` (strictly beyond the last anchor), `compute`
does not return the last segment's interpolation result: the segment
rule yields `2` there, while the fall-through path returns `0`. -/
theorem compute_fallthrough_counterexample :
    compute [mkNode ⟨0, 0⟩, mkNode ⟨1, 1⟩] 2 ≠
      computeSeg (mkNode ⟨0, 0⟩) (mkNode ⟨1, 1⟩) 2 := by
  have h1 : compute [mkNode ⟨0, 0⟩, mkNode ⟨1, 1⟩] 2 = 0 := by
    norm_num [compute, computeAux, mkNode]
  have h2 : computeSeg (mkNode ⟨0, 0⟩) (mkNode ⟨1, 1⟩) 2 = 2 := by
    norm_num [computeSeg, mkNode]
  rw [h1, h2]
  norm_num

/-- C3, amended: when the input is strictly greater than every node's
anchor x (so the segment scan falls through without selecting a
segment), `compute` returns `0` — the value of the C++ fall-through
path `jassertfalse; return 0.0f;` — not the last segment's
interpolation result. -/
theorem compute_fallthrough_returns_zero (nodes : List Node) (x : ℚ)
    (h : ∀ n ∈ nodes, n.anchor.x < x) : compute nodes x = 0 := by
  cases nodes with
  | nil => rfl
  | cons n0 rest =>
    show computeAux n0 rest x = 0
    exact computeAux_fallthrough rest n0 x (fun n hn => h n (by simp [hn]))

/-- Witness for `compute_fallthrough_returns_zero` at the two-node
linear model from `(0,0)` to `(1,1)` with input `2`. -/
theorem compute_fallthrough_returns_zero_witness :
    compute [mkNode ⟨0, 0⟩, mkNode ⟨1, 1⟩] 2 = 0 :=
  compute_fallthrough_returns_zero [mkNode ⟨0, 0⟩, mkNode ⟨1, 1⟩] 2
    (by norm_num [mkNode])

/-- C4, failing run: starting from the freshly constructed model on
`[0,100] × [0,100]` (anchors at x = 0, 50, 100), inserting a point at
`(30,30)` and then dragging the anchor of the node at x = 50 towards
`(0,50)` moves that anchor to x = 5 while leaving it third in the
sequence: the anchor x's become `[0, 30, 5, 100]`, which is not sorted.
`mouseDrag` contains no reordering step, so the sortedness invariant —
which `compute` itself asserts — is not re-established during the
drag. -/
theorem mouseDrag_breaks_sorted_invariant :
    (((freshModel 0 100 0 100).addPoint ⟨30, 30⟩).mouseDrag 2
        HandleKind.anchor ⟨0, 50⟩).nodes.map (fun n => n.anchor.x) = [0, 30, 5, 100] ∧
    ¬ anchorsSorted (((freshModel 0 100 0 100).addPoint ⟨30, 30⟩).mouseDrag 2
        HandleKind.anchor ⟨0, 50⟩).nodes := by
  constructor
  · norm_num [Model.mouseDrag, Model.addPoint, freshModel, addPoint, mkNode, jlimit,
      Pt.add, Pt.sub, Pt.smul, Node.setAnchorPt]
  · norm_num [Model.mouseDrag, Model.addPoint, freshModel, addPoint, mkNode, jlimit,
      Pt.add, Pt.sub, Pt.smul, Node.setAnchorPt, anchorsSorted]

/-- C5, failing run (the claim's own example): on the fresh model with
anchors at x = 0, 50, 100, dragging the middle anchor towards x = 120
clamps it to `maxX - 1 = 99` and performs no swap: the node order is
unchanged, the dragged node is still the middle one, and the node that
was at x = 100 is still last — contradicting the claimed reorder that
would make the dragged node the last node pinned at `maxX`. -/
theorem mouseDrag_performs_no_swap :
    ((freshModel 0 100 0 100).mouseDrag 1 HandleKind.anchor ⟨120, 50⟩).nodes.map
        (fun n => n.anchor) = [⟨0, 0⟩, ⟨99, 50⟩, ⟨100, 100⟩] := by
  norm_num [Model.mouseDrag, freshModel, mkNode, jlimit, Pt.add, Pt.sub, Pt.smul,
    Node.setAnchorPt]

/-- C6, failing input reached: on the model with two nodes whose
anchors share x = 2 (left node `Linear`), input `1` selects exactly
that degenerate segment, whose slope denominator
`anchor.x - lastAnchor.x` is `0`, and `compute` dispatches into the
Linear branch — the C++ code performs the division
`(anchor.y - lastAnchor.y) / 0` with no guard there. -/
theorem linear_zero_denominator_unguarded :
    selectIdx [mkNode ⟨2, 0⟩, mkNode ⟨2, 7⟩] 1 = some 1 ∧
    (([mkNode ⟨2, 0⟩, mkNode ⟨2, 7⟩] : List Node).getD 0 default).curveType
      = CurveType.Linear ∧
    (([mkNode ⟨2, 0⟩, mkNode ⟨2, 7⟩] : List Node).getD 1 default).anchor.x -
      (([mkNode ⟨2, 0⟩, mkNode ⟨2, 7⟩] : List Node).getD 0 default).anchor.x = 0 ∧
    compute [mkNode ⟨2, 0⟩, mkNode ⟨2, 7⟩] 1 =
      computeSeg (mkNode ⟨2, 0⟩) (mkNode ⟨2, 7⟩) 1 := by
  refine ⟨by norm_num [selectIdx, selectRel, mkNode], rfl, by norm_num [mkNode], ?_⟩
  show computeAux _ _ _ = _
  norm_num [computeAux, mkNode]

/-- C7, counterexample: a segment-type change targeting the last node
(here a fresh `Linear` node, so the new type `Quadratic` requires a
following segment) is not a no-op — the node's `curveType` is still
advanced. -/
theorem cycle_last_node_changes_type :
    (cycleSegmentType (mkNode ⟨100, 100⟩) true).curveType ≠
      (mkNode ⟨100, 100⟩).curveType := by
  intro hq
  cases hq

/-- C7, amended: when the type change targets the last node and the
new type is `Quadratic` or `Cubic` (i.e. the old type is not `Cubic`),
the control handles are left unchanged — only the `curveType` field is
advanced to the next type in the cycle. -/
theorem cycle_last_node_keeps_controls (node : Node)
    (h : node.curveType ≠ CurveType.Cubic) :
    cycleSegmentType node true =
      { node with
        curveType := CurveType.ofInt ((CurveType.toInt node.curveType + 1) % 3) } := by
  rcases node with ⟨a, c1, c2, t⟩
  cases t
  · rfl
  · rfl
  · exact absurd rfl h

/-- Witness for `cycle_last_node_keeps_controls` at a fresh `Linear`
node. -/
theorem cycle_last_node_keeps_controls_witness :
    cycleSegmentType (mkNode ⟨7, 9⟩) true =
      { mkNode ⟨7, 9⟩ with
        curveType := CurveType.ofInt ((CurveType.toInt (mkNode ⟨7, 9⟩).curveType + 1) % 3) } :=
  cycle_last_node_keeps_controls (mkNode ⟨7, 9⟩) (by simp [mkNode])

/-- C8: for a non-last node, a segment-type change advances the type
cyclically (`newType = (oldType + 1) % 3`) and reseeds the controls:
transition to `Quadratic` sets `control1 := anchor + (5, 0)`,
transition to `Cubic` sets `control1 := anchor + (5, 0)` and
`control2 := anchor + (0, 5)`, transition to `Linear` collapses
`control1` onto the anchor. -/
theorem cycle_nonlast_advances_and_reseeds (node : Node) :
    (cycleSegmentType node false).curveType =
      CurveType.ofInt ((CurveType.toInt node.curveType + 1) % 3) ∧
    (node.curveType = CurveType.Linear →
      cycleSegmentType node false =
        { node with
          curveType := CurveType.Quadratic
          control1 := Pt.add node.anchor ⟨5, 0⟩ }) ∧
    (node.curveType = CurveType.Quadratic →
      cycleSegmentType node false =
        { node with
          curveType := CurveType.Cubic
          control1 := Pt.add node.anchor ⟨5, 0⟩
          control2 := Pt.add node.anchor ⟨0, 5⟩ }) ∧
    (node.curveType = CurveType.Cubic →
      cycleSegmentType node false =
        { node with curveType := CurveType.Linear, control1 := node.anchor }) := by
  rcases node with ⟨a, c1, c2, t⟩
  cases t
  · exact ⟨rfl, fun _ => rfl, fun hq => absurd hq (by simp),
      fun hq => absurd hq (by simp)⟩
  · exact ⟨rfl, fun hq => absurd hq (by simp), fun _ => rfl,
      fun hq => absurd hq (by simp)⟩
  · exact ⟨rfl, fun hq => absurd hq (by simp), fun hq => absurd hq (by simp),
      fun _ => rfl⟩

/-- Witness for `cycle_nonlast_advances_and_reseeds` at a fresh
`Linear` node at `(1, 2)`: the change yields `Quadratic` with
`control1 = (6, 2)`. -/
theorem cycle_nonlast_advances_and_reseeds_witness :
    cycleSegmentType (mkNode ⟨1, 2⟩) false =
      { mkNode ⟨1, 2⟩ with
        curveType := CurveType.Quadratic
        control1 := Pt.add (mkNode ⟨1, 2⟩).anchor ⟨5, 0⟩ } :=
  (cycle_nonlast_advances_and_reseeds (mkNode ⟨1, 2⟩)).2.1 rfl

/-- C9: serializing every node to the attributed tree and
deserializing the tree back reproduces the node list exactly — same
length, same `curveType` and same `anchor`, `control1`, `control2`
coordinates, in the same order. -/
theorem fromValueTree_toValueTree_roundtrip (nodes : List Node) :
    fromValueTree (nodes.map (fun n => Node.toValueTree n)) = nodes := by
  have hnode : ∀ n : Node,
      (Node.setControlPt2
        (Node.setControlPt1
          { mkNode ⟨(Node.toValueTree n).anchor.x, (Node.toValueTree n).anchor.y⟩ with
            curveType := CurveType.ofInt (Node.toValueTree n).curveType }
          ⟨(Node.toValueTree n).control1.x, (Node.toValueTree n).control1.y⟩)
        ⟨(Node.toValueTree n).control2.x, (Node.toValueTree n).control2.y⟩) = n := by
    intro n
    rcases n with ⟨a, c1, c2, t⟩
    cases t <;> rfl
  unfold fromValueTree
  rw [List.map_map]
  have hcomp :
      ((fun child : NodeTree =>
          Node.setControlPt2
            (Node.setControlPt1
              { mkNode ⟨child.anchor.x, child.anchor.y⟩ with
                curveType := CurveType.ofInt child.curveType }
              ⟨child.control1.x, child.control1.y⟩)
            ⟨child.control2.x, child.control2.y⟩) ∘
        fun n => Node.toValueTree n) = id := by
    funext n
    exact hnode n
  rw [hcomp, List.map_id]

/-- C10: a point strictly to the right of every anchor is not inserted
at all (`addPoint` leaves the sequence unchanged), and when some node
has `anchor.x ≥ p.x` the new node is placed immediately before the
first such node. -/
theorem addPoint_inserts_before_first_ge (nodes : List Node) (p : Pt) :
    ((∀ n ∈ nodes, n.anchor.x < p.x) → addPoint nodes p = nodes) ∧
    ((∃ n ∈ nodes, p.x ≤ n.anchor.x) →
      addPoint nodes p =
        nodes.takeWhile (fun n => decide (n.anchor.x < p.x)) ++
          mkNode p :: nodes.dropWhile (fun n => decide (n.anchor.x < p.x))) := by
  induction nodes with
  | nil =>
    refine ⟨fun _ => rfl, ?_⟩
    rintro ⟨n, hn, _⟩
    simp at hn
  | cons nd rest ih =>
    by_cases hx : p.x ≤ nd.anchor.x
    · constructor
      · intro h
        exact absurd hx (not_le.mpr (h nd (by simp)))
      · intro _
        have hdec : decide (nd.anchor.x < p.x) = false := by
          simp [not_lt.mpr hx]
        simp [addPoint, hx, List.takeWhile_cons, List.dropWhile_cons, hdec]
    · constructor
      · intro h
        simp only [addPoint, if_neg hx]
        rw [ih.1 (fun n hn => h n (by simp [hn]))]
      · rintro ⟨n, hn, hge⟩
        have hn' : n ∈ rest := by
          rcases List.mem_cons.mp hn with rfl | h'
          · exact absurd hge hx
          · exact h'
        have hdec : decide (nd.anchor.x < p.x) = true := by
          simp [not_le.mp hx]
        simp only [addPoint, if_neg hx]
        rw [ih.2 ⟨n, hn', hge⟩]
        simp [List.takeWhile_cons, List.dropWhile_cons, hdec]

/-- Witness for `addPoint_inserts_before_first_ge`: on anchors at
x = 0 and x = 10, the out-of-range point `(20, 5)` changes nothing,
and the in-range point `(4, 5)` is inserted before the node at
x = 10. -/
theorem addPoint_inserts_before_first_ge_witness :
    addPoint [mkNode ⟨0, 0⟩, mkNode ⟨10, 0⟩] ⟨20, 5⟩ = [mkNode ⟨0, 0⟩, mkNode ⟨10, 0⟩] ∧
    addPoint [mkNode ⟨0, 0⟩, mkNode ⟨10, 0⟩] ⟨4, 5⟩ =
      ([mkNode ⟨0, 0⟩, mkNode ⟨10, 0⟩] : List Node).takeWhile
          (fun n => decide (n.anchor.x < (4 : ℚ))) ++
        mkNode ⟨4, 5⟩ :: ([mkNode ⟨0, 0⟩, mkNode ⟨10, 0⟩] : List Node).dropWhile
          (fun n => decide (n.anchor.x < (4 : ℚ))) := by
  constructor
  · exact (addPoint_inserts_before_first_ge [mkNode ⟨0, 0⟩, mkNode ⟨10, 0⟩] ⟨20, 5⟩).1
      (by norm_num [mkNode])
  · exact (addPoint_inserts_before_first_ge [mkNode ⟨0, 0⟩, mkNode ⟨10, 0⟩] ⟨4, 5⟩).2
      ⟨mkNode ⟨10, 0⟩, by simp, by norm_num [mkNode]⟩

end CurveEditor
